import Mathlib

/-!
Verification of the snafed audio-spectrogram core.

A shallow embedding of `src/App.tsx` (the `App` React component): its two
per-file-index caches (`audioDataCache`, `spectrogramImageDataCache`), the
get-or-compute accessors `getAudioData` / `getSpectrogramImageData`, the
resize / navigation / volume handlers, and the promise-based render
orchestration `useSelectedAudioFileToRender` with its microtask ordering.

Browser facilities (audio decoding, FFT analysis, canvas pixel rendering,
markings drawing, field derivation) live behind an explicit `Env` record of
collaborator functions; their repository implementations
(`src/canvas/calculationUtils.ts`, `src/canvas/renderSpectrogramAndMarkings.ts`,
`src/config.ts`) are not part of the provided sources, so they are modelled
from the specification where indicated.  Promise settlement is modelled by
`POutcome` (resolved / rejected / pending) and the microtask queue by an
explicit FIFO job list.
-/

namespace Snafed

/-- A JavaScript number as seen by the volume handler: either a finite
rational or one of the non-finite values (`NaN`, `±Infinity`). -/
inductive JsNum
  | finite (q : ℚ)
  | nan
  | posInf
  | negInf
deriving DecidableEq, Repr

/-- The predicate `Number.isFinite` on our model of JS numbers. -/
def JsNum.isFinite : JsNum → Bool
  | .finite _ => true
  | _ => false

/-- A DOM exception that can be thrown by browser APIs used in `App.tsx`:
`IndexSizeError` is thrown by `getImageData` on a zero-sized rectangle, and a
`TypeError` results from reading a nonexistent array element as a `Blob`. -/
inductive JSError
  | indexSizeError
  | typeError
deriving DecidableEq, Repr

/-- The observable settlement status of a JS `Promise`: resolved with a
value, rejected with an error, or forever pending (never settled). -/
inductive POutcome (α : Type)
  | resolved (v : α)
  | rejected (e : JSError)
  | pending
deriving DecidableEq, Repr

/-- Failure of `AudioContext.decodeAudioData` on an unsupported or corrupt
byte stream. -/
inductive DecodeError
  | unsupportedOrCorrupt
deriving DecidableEq, Repr

/-- An input audio file: name plus raw byte content (`props.audioFiles`). -/
structure AudioFile where
  name : String
  content : List ℕ
deriving DecidableEq, Repr

/-- A decoded sample buffer (the browser `AudioBuffer`): amplitude samples
and a sample rate. -/
structure AudioBuffer where
  samples : List ℤ
  sampleRate : ℕ
deriving DecidableEq, Repr

/-- Modelled from the spec: the configuration object (`snatcitConfig`,
schema in `src/config.ts`/`src/state.ts`, absent from the provided sources)
is opaque to the core; `App.tsx` threads it unchanged to the analyzer, the
renderer, and the field-derivation collaborator. -/
structure SnatcitConfig where
  raw : ℕ
deriving DecidableEq, Repr

/-- Modelled from the spec: the result of `getSpectrumFftData`
(`src/canvas/calculationUtils.ts`, absent from the provided sources): a
2-D magnitude matrix with a frequency-bin count `spectrumBins`; `App.tsx`
reads only `spectrumBins` (as the image height). -/
structure SpectrumFftData where
  spectrumBins : ℕ
  magnitudes : List (List ℕ)
deriving DecidableEq, Repr

/-- The `AudioData` interface of `App.tsx`: a decoded buffer paired with its
spectrum data. -/
structure AudioData where
  audioBuffer : AudioBuffer
  spectrumFftData : SpectrumFftData
deriving DecidableEq, Repr

/-- A browser `ImageData`: width, height and RGBA byte data. -/
structure ImageData where
  width : ℕ
  height : ℕ
  data : List ℕ
deriving DecidableEq, Repr

/-- A canvas bitmap surface: dimensions plus pixel content. -/
structure Surface where
  width : ℕ
  height : ℕ
  pixels : List ℕ
deriving DecidableEq, Repr

/-- Setting `canvas.width` / `canvas.height` resets the bitmap to a blank
(transparent) surface of the new size. -/
def blankSurface (w h : ℕ) : Surface :=
  ⟨w, h, List.replicate (4 * w * h) 0⟩

/-- A labeled computed value delivered by `getAllFieldValuesForEntry`
(`computedValues`), consumed by the markings renderer. -/
structure LabeledFieldValue where
  label : String
  value : ℚ
deriving DecidableEq, Repr

/-- A JS-object-style cache keyed by file index (`{ [index: number]: T }`). -/
abbrev Cache (α : Type) := List (ℤ × α)

/-- Property lookup on a JS-object cache: the most recent binding wins. -/
def cacheLookup {α : Type} : Cache α → ℤ → Option α
  | [], _ => none
  | (k, v) :: rest, i => if i = k then some v else cacheLookup rest i

/-- Indexing `array[i]` on a JS array: `undefined` (here `none`) when out of range. -/
def listGetZ {α : Type} (l : List α) (i : ℤ) : Option α :=
  if 0 ≤ i then l.get? i.toNat else none

/-- The external collaborators of the core, as an explicit environment:
* `decode` — `AudioContext.decodeAudioData` (browser built-in);
* `analyze` — modelled from the spec: `getSpectrumFftData` of
  `src/canvas/calculationUtils.ts` (absent from the provided sources)
  computes a `SpectrumFftData` from a decoded buffer and the config;
* `renderPixels` — modelled from the spec: `renderSpectrogram` of
  `src/canvas/renderSpectrogramAndMarkings.ts` (absent from the provided
  sources) paints spectrogram pixels for a given surface size from the
  decoded buffer and the config;
* `drawMarks` — modelled from the spec: `renderMarkings` of the same file
  draws each mark onto the drawing surface it is handed;
* `fields` — `getAllFieldValuesForEntry` of `src/config.ts` (absent from
  the provided sources): for a file name, the computed labeled values and
  the names of fields that could not be computed. -/
structure Env where
  decode : List ℕ → Except DecodeError AudioBuffer
  analyze : AudioBuffer → SnatcitConfig → SpectrumFftData
  renderPixels : ℕ → ℕ → AudioBuffer → SnatcitConfig → List ℕ
  drawMarks : Surface → List LabeledFieldValue → Surface
  fields : SnatcitConfig → String → List LabeledFieldValue × List String

/-- The immutable `AppProps`: the ordered audio file list and the initial
configuration. -/
structure AppProps where
  audioFiles : List AudioFile
  initialConfig : SnatcitConfig
deriving DecidableEq, Repr

/-- The mutable state of the `App` component: React state (`volume`,
`isPlaying`, `selectedIndex`, `config`), the two instance-field caches, the
hidden internal canvas and the visible spectrogram canvas. -/
structure AppState where
  volume : ℚ
  isPlaying : Bool
  selectedIndex : ℤ
  config : SnatcitConfig
  audioDataCache : Cache AudioData
  spectrogramImageDataCache : Cache ImageData
  internalSurface : Surface
  visibleSurface : Surface
deriving DecidableEq, Repr

/-- The state installed by the `App` constructor: volume `1`, not playing,
selected index `0`, the initial config, and both caches empty. -/
def initialState (props : AppProps) : AppState :=
  { volume := 1
    isPlaying := false
    selectedIndex := 0
    config := props.initialConfig
    audioDataCache := []
    spectrogramImageDataCache := []
    internalSurface := blankSurface 0 0
    visibleSurface := blankSurface 0 0 }

/-- The browser call `CanvasRenderingContext2D.getImageData(0, 0, w, h)`: throws
`IndexSizeError` when either dimension is zero, otherwise returns the
`w × h` pixel rectangle of the surface. -/
def getImageData (surf : Surface) (w h : ℕ) : Except JSError ImageData :=
  if w = 0 ∨ h = 0 then .error .indexSizeError
  else .ok ⟨w, h, surf.pixels⟩

/-- The accessor `App.getAudioData(index)`: return the cached `AudioData` when present;
otherwise read the file bytes, decode them, analyze the spectrum, store the
result in `audioDataCache`, and resolve with it.  The result is the
promise outcome, the updated state, and whether the producer
(decode-and-analyze) was invoked.  Since `decodeAudioData` is called
without an error callback and the `FileReader` has no error listener, a
decode failure settles nothing: the promise stays `pending` and nothing is
cached. -/
def getAudioData (env : Env) (props : AppProps) (st : AppState) (index : ℤ) :
    POutcome AudioData × AppState × Bool :=
  match cacheLookup st.audioDataCache index with
  | some cachedData => (.resolved cachedData, st, false)
  | none =>
    match listGetZ props.audioFiles index with
    | none => (.rejected .typeError, st, false)
    | some file =>
      match env.decode file.content with
      | .error _ => (.pending, st, true)
      | .ok audioBuffer =>
        let spectrumData := env.analyze audioBuffer st.config
        let data : AudioData := ⟨audioBuffer, spectrumData⟩
        (.resolved data,
         { st with audioDataCache := (index, data) :: st.audioDataCache },
         true)

/-- The accessor `App.getSpectrogramImageData(index)`: return the cached `ImageData` when
present; otherwise obtain the `AudioData`, size the internal canvas to
`window.innerWidth × spectrumBins` (which blanks it), run
`renderSpectrogram` onto it, read the pixels back with `getImageData`,
store the image in `spectrogramImageDataCache`, and resolve with it.
Result: promise outcome, updated state, whether the audio producer ran,
and whether the image producer (render-and-read-back) ran. -/
def getSpectrogramImageData (env : Env) (props : AppProps) (innerWidth : ℕ)
    (st : AppState) (index : ℤ) :
    POutcome ImageData × AppState × Bool × Bool :=
  match cacheLookup st.spectrogramImageDataCache index with
  | some cachedData => (.resolved cachedData, st, false, false)
  | none =>
    match getAudioData env props st index with
    | (.pending, st1, r1) => (.pending, st1, r1, false)
    | (.rejected e, st1, r1) => (.rejected e, st1, r1, false)
    | (.resolved data, st1, r1) =>
      let canvasWidth := innerWidth
      let canvasHeight := data.spectrumFftData.spectrumBins
      let surf0 := blankSurface canvasWidth canvasHeight
      let surf1 : Surface :=
        { surf0 with
            pixels := env.renderPixels canvasWidth canvasHeight
              data.audioBuffer st1.config }
      match getImageData surf1 canvasWidth canvasHeight with
      | .error e =>
        (.rejected e, { st1 with internalSurface := surf1 }, r1, true)
      | .ok imgData =>
        (.resolved imgData,
         { st1 with
             internalSurface := surf1
             spectrogramImageDataCache :=
               (index, imgData) :: st1.spectrogramImageDataCache },
         r1, true)

/-- An observable drawing event on the visible spectrogram canvas. -/
inductive RenderEvent
  | marksDrawn
  | spectrogramPixelsPut (width height : ℕ)
deriving DecidableEq, Repr

/-- A queued microtask continuation created by the render orchestration:
the `.then` callback on the promise of `getAudioData` inside
`useSelectedAudioFileToRender`, and the `.then` callback on
the promise of `getSpectrogramImageData` inside `renderSpectrogramUsingCache`. -/
inductive Job
  | audioThen
  | imageThen (img : ImageData)
deriving DecidableEq, Repr

/-- The machine state of one render request: the component state, the trace
of drawing events on the visible canvas, and whether each producer has run
during this request. -/
structure MState where
  app : AppState
  events : List RenderEvent
  audioRan : Bool
  imageRan : Bool
deriving DecidableEq, Repr

/-- The file name of the currently selected entry (empty when the index is
out of range, which `App.render` would have crashed on anyway). -/
def selectedFileName (props : AppProps) (st : AppState) : String :=
  match listGetZ props.audioFiles st.selectedIndex with
  | some f => f.name
  | none => ""

/-- The `renderMarkings` step lifted to component state: draw the computed
marks for the selected file onto the live visible surface (modelled from
the spec: `renderMarkings` draws each mark onto the drawing surface it is
handed — it receives only the visible canvas context via `RenderConfig`,
never a cache). -/
def applyRenderMarkings (env : Env) (props : AppProps) (st : AppState) :
    AppState :=
  { st with
      visibleSurface :=
        env.drawMarks st.visibleSurface
          (env.fields st.config (selectedFileName props st)).1 }

/-- Run one queued microtask.
`audioThen` is the body of the `.then` of `useSelectedAudioFileToRender`: it runs
`renderSpectrogramUsingCache` — whose synchronous part starts
`getSpectrogramImageData` and attaches the `putImageData` continuation —
and then immediately runs `renderMarkings` synchronously.
`imageThen` is that continuation: it sets the dimensions of the visible canvas
(blanking it, erasing anything drawn before) and writes the image pixels. -/
def runJob (env : Env) (props : AppProps) (w : ℕ) (ms : MState) :
    Job → MState × List Job
  | .audioThen =>
    match getSpectrogramImageData env props w ms.app ms.app.selectedIndex with
    | (out, app1, r1, r2) =>
      let newJobs : List Job :=
        match out with
        | .resolved img => [.imageThen img]
        | _ => []
      let app2 := applyRenderMarkings env props app1
      ({ app := app2
         events := ms.events ++ [.marksDrawn]
         audioRan := ms.audioRan || r1
         imageRan := ms.imageRan || r2 }, newJobs)
  | .imageThen img =>
    ({ ms with
         app :=
           { ms.app with visibleSurface := ⟨img.width, img.height, img.data⟩ }
         events :=
           ms.events ++ [.spectrogramPixelsPut img.width img.height] }, [])

/-- Drain the FIFO microtask queue (fuel-bounded; a render request enqueues
at most two jobs in total). -/
def drainJobs (env : Env) (props : AppProps) (w : ℕ) :
    ℕ → List Job → MState → MState
  | 0, _, ms => ms
  | _ + 1, [], ms => ms
  | fuel + 1, j :: rest, ms =>
    match runJob env props w ms j with
    | (ms1, newJobs) => drainJobs env props w fuel (rest ++ newJobs) ms1

/-- The orchestrator `App.useSelectedAudioFileToRender([renderSpectrogramUsingCache,
renderMarkings])`, run to quiescence: start `getAudioData` for the selected
index; when its promise resolves, its `.then` continuation and any
continuation it spawns run in microtask (FIFO) order.  When the promise is
pending or rejected the continuation never runs and no renderer is
invoked. -/
def runRenderRequest (env : Env) (props : AppProps) (w : ℕ) (st : AppState) :
    MState :=
  match getAudioData env props st st.selectedIndex with
  | (out, st1, r1) =>
    let ms0 : MState := ⟨st1, [], r1, false⟩
    match out with
    | .resolved _ => drainJobs env props w 4 [.audioThen] ms0
    | _ => ms0

/-- The drawing-event trace of one render request. -/
def renderRequestEvents (env : Env) (props : AppProps) (w : ℕ)
    (st : AppState) : List RenderEvent :=
  (runRenderRequest env props w st).events

/-- One orchestrator invocation, keeping the final component state and
whether each producer ran. -/
def renderInvocation (env : Env) (props : AppProps) (w : ℕ) (st : AppState) :
    AppState × Bool × Bool :=
  match runRenderRequest env props w st with
  | ms => (ms.app, ms.audioRan, ms.imageRan)

/-- The handler `App.windowOnResize`: clear the spectrogram image cache, then
re-render the current selection (`resizeAndRerenderCanvas`), at the new
viewport width. -/
def windowOnResize (env : Env) (props : AppProps) (w : ℕ) (st : AppState) :
    AppState × Bool × Bool :=
  renderInvocation env props w { st with spectrogramImageDataCache := [] }

/-- The handler `App.previousFileButtonOnClick`: move the selection to
`max(0, selectedIndex - 1)`; the state update fires `componentDidUpdate`
(which calls `resizeAndRerenderCanvas`) and then the `setState` callback
renders the selection again. -/
def previousFileButtonOnClick (env : Env) (props : AppProps) (w : ℕ)
    (st : AppState) : AppState :=
  (renderInvocation env props w
    (renderInvocation env props w
      { st with selectedIndex := max 0 (st.selectedIndex - 1) }).1).1

/-- The handler `App.nextFileButtonOnClick`: move the selection to
`min(audioFiles.length - 1, selectedIndex + 1)`; the state update fires
`componentDidUpdate` and then the `setState` callback renders again. -/
def nextFileButtonOnClick (env : Env) (props : AppProps) (w : ℕ)
    (st : AppState) : AppState :=
  (renderInvocation env props w
    (renderInvocation env props w
      { st with
          selectedIndex :=
            min ((props.audioFiles.length : ℤ) - 1)
              (st.selectedIndex + 1) }).1).1

/-- The handler `App.volumeSliderOnChange`: ignore a non-finite parsed
value; otherwise clamp it into `[0, 1]`
(`Math.max(0, Math.min(v, 1))`) and store it. -/
def volumeSliderOnChange (st : AppState) (v : JsNum) : AppState :=
  match v with
  | .finite q => { st with volume := max 0 (min q 1) }
  | _ => st

/-- A user/view-layer operation against the core. -/
inductive Op
  | previousFile
  | nextFile
  | volumeSlider (v : JsNum)
  | resize
  | renderCurrent
deriving DecidableEq, Repr

/-- Apply one operation, run to completion.  A finite volume change goes
through `setState` and therefore also fires the `componentDidUpdate`
re-render; a non-finite one returns before `setState`. -/
def applyOp (env : Env) (props : AppProps) (w : ℕ) (st : AppState) :
    Op → AppState
  | .previousFile => previousFileButtonOnClick env props w st
  | .nextFile => nextFileButtonOnClick env props w st
  | .volumeSlider v =>
    match v with
    | .finite q =>
      (renderInvocation env props w (volumeSliderOnChange st (.finite q))).1
    | _ => st
  | .resize => (windowOnResize env props w st).1
  | .renderCurrent => (renderInvocation env props w st).1

/-- Apply a sequence of operations starting from the constructor state. -/
def applyOps (env : Env) (props : AppProps) (w : ℕ) (ops : List Op) :
    AppState :=
  ops.foldl (applyOp env props w) (initialState props)

/-- Run `n` consecutive orchestrator invocations (no intervening resize or
navigation), returning the final state and how many times each producer
(audio decode-and-analyze, image render-and-read-back) was invoked. -/
def iterateInvocations (env : Env) (props : AppProps) (w : ℕ) :
    ℕ → AppState → AppState × ℕ × ℕ
  | 0, st => (st, 0, 0)
  | n + 1, st =>
    match renderInvocation env props w st with
    | (st1, a, i) =>
      match iterateInvocations env props w n st1 with
      | (st2, na, ni) =>
        (st2, (if a then 1 else 0) + na, (if i then 1 else 0) + ni)

/-!
Helper lemmas: how each embedded operation transforms the component state.
-/

theorem cacheLookup_cons {α : Type} (k : ℤ) (v : α) (c : Cache α) (i : ℤ) :
    cacheLookup ((k, v) :: c) i = if i = k then some v else cacheLookup c i :=
  rfl

/-- A cache hit returns the cached value with no producer call and no state
change. -/
theorem getAudioData_hit (env : Env) (props : AppProps) (st : AppState)
    (idx : ℤ) (d : AudioData)
    (h : cacheLookup st.audioDataCache idx = some d) :
    getAudioData env props st idx = (.resolved d, st, false) := by
  simp [getAudioData, h]

/-- The audio getter changes nothing but (possibly) the audio cache. -/
theorem getAudioData_frame (env : Env) (props : AppProps) (st : AppState)
    (idx : ℤ) :
    (getAudioData env props st idx).2.1.volume = st.volume ∧
    (getAudioData env props st idx).2.1.isPlaying = st.isPlaying ∧
    (getAudioData env props st idx).2.1.selectedIndex = st.selectedIndex ∧
    (getAudioData env props st idx).2.1.config = st.config ∧
    (getAudioData env props st idx).2.1.spectrogramImageDataCache =
      st.spectrogramImageDataCache ∧
    (getAudioData env props st idx).2.1.internalSurface =
      st.internalSurface ∧
    (getAudioData env props st idx).2.1.visibleSurface = st.visibleSurface := by
  unfold getAudioData
  split
  · simp
  · split
    · simp
    · split <;> simp

/-- The audio getter only ever prepends a fresh entry for a previously
absent index: every existing binding is still found unchanged. -/
theorem getAudioData_audio_mono (env : Env) (props : AppProps)
    (st : AppState) (idx j : ℤ) (v : AudioData)
    (h : cacheLookup st.audioDataCache j = some v) :
    cacheLookup (getAudioData env props st idx).2.1.audioDataCache j =
      some v := by
  unfold getAudioData
  split
  next d hc => simpa using h
  next hc =>
    split
    next hf => simpa using h
    next f hf =>
      split
      next e hd => simpa using h
      next buf hd =>
        simp only [cacheLookup_cons]
        rcases eq_or_ne j idx with rfl | hne
        · rw [h] at hc; cases hc
        · simp [hne, h]

/-- A resolved audio promise means the value is now in the audio cache. -/
theorem getAudioData_resolved_lookup (env : Env) (props : AppProps)
    (st st1 : AppState) (idx : ℤ) (d : AudioData) (b : Bool)
    (h : getAudioData env props st idx = (.resolved d, st1, b)) :
    cacheLookup st1.audioDataCache idx = some d := by
  unfold getAudioData at h
  split at h
  next c hc =>
    simp only [Prod.mk.injEq, POutcome.resolved.injEq] at h
    obtain ⟨h1, h2, -⟩ := h
    subst h1 h2
    exact hc
  next hc =>
    split at h
    next hf => simp at h
    next f hf =>
      split at h
      next e hd => simp at h
      next buf hd =>
        simp only [Prod.mk.injEq, POutcome.resolved.injEq] at h
        obtain ⟨h1, h2, -⟩ := h
        subst h2
        simp [cacheLookup_cons, h1]

/-- On an audio-cache miss for a valid index whose bytes decode
successfully, the producer runs and the fresh `AudioData` is stored and
resolved. -/
theorem getAudioData_miss_ok (env : Env) (props : AppProps) (st : AppState)
    (idx : ℤ) (f : AudioFile) (buf : AudioBuffer)
    (hc : cacheLookup st.audioDataCache idx = none)
    (hf : listGetZ props.audioFiles idx = some f)
    (hd : env.decode f.content = .ok buf) :
    getAudioData env props st idx =
      (.resolved ⟨buf, env.analyze buf st.config⟩,
       { st with
           audioDataCache :=
             (idx, ⟨buf, env.analyze buf st.config⟩) :: st.audioDataCache },
       true) := by
  simp [getAudioData, hc, hf, hd]

/-- On an audio-cache miss whose bytes fail to decode, the producer runs
but — `decodeAudioData` being called with no error callback — the promise
never settles and the state is left exactly as it was. -/
theorem getAudioData_miss_err (env : Env) (props : AppProps) (st : AppState)
    (idx : ℤ) (f : AudioFile) (e : DecodeError)
    (hc : cacheLookup st.audioDataCache idx = none)
    (hf : listGetZ props.audioFiles idx = some f)
    (hd : env.decode f.content = .error e) :
    getAudioData env props st idx = (.pending, st, true) := by
  simp [getAudioData, hc, hf, hd]

/-- A cache hit on the image cache returns the cached image with no
producer call and no state change. -/
theorem getSpectrogramImageData_hit (env : Env) (props : AppProps) (w : ℕ)
    (st : AppState) (idx : ℤ) (i : ImageData)
    (h : cacheLookup st.spectrogramImageDataCache idx = some i) :
    getSpectrogramImageData env props w st idx = (.resolved i, st, false, false) := by
  simp [getSpectrogramImageData, h]

/-- The image getter never changes the React state fields. -/
theorem getSpectrogramImageData_frame (env : Env) (props : AppProps) (w : ℕ)
    (st : AppState) (idx : ℤ) :
    (getSpectrogramImageData env props w st idx).2.1.volume = st.volume ∧
    (getSpectrogramImageData env props w st idx).2.1.isPlaying =
      st.isPlaying ∧
    (getSpectrogramImageData env props w st idx).2.1.selectedIndex =
      st.selectedIndex ∧
    (getSpectrogramImageData env props w st idx).2.1.config = st.config := by
  rcases h_img : cacheLookup st.spectrogramImageDataCache idx with _ | i
  · rcases h_aud : getAudioData env props st idx with ⟨out, st1, r1⟩
    have frame := getAudioData_frame env props st idx
    rw [h_aud] at frame
    simp only at frame
    rcases out with data | e | _
    · simp only [getSpectrogramImageData, h_img, h_aud, getImageData]
      split_ifs <;>
        simp [frame.1, frame.2.1, frame.2.2.1, frame.2.2.2.1]
    · simp [getSpectrogramImageData, h_img, h_aud, frame.1, frame.2.1,
        frame.2.2.1, frame.2.2.2.1]
    · simp [getSpectrogramImageData, h_img, h_aud, frame.1, frame.2.1,
        frame.2.2.1, frame.2.2.2.1]
  · simp [getSpectrogramImageData, h_img]

/-- The image getter preserves every existing audio-cache binding. -/
theorem getSpectrogramImageData_audio_mono (env : Env) (props : AppProps)
    (w : ℕ) (st : AppState) (idx j : ℤ) (v : AudioData)
    (h : cacheLookup st.audioDataCache j = some v) :
    cacheLookup
      (getSpectrogramImageData env props w st idx).2.1.audioDataCache j =
      some v := by
  rcases h_img : cacheLookup st.spectrogramImageDataCache idx with _ | i
  · rcases h_aud : getAudioData env props st idx with ⟨out, st1, r1⟩
    have mono := getAudioData_audio_mono env props st idx j v h
    rw [h_aud] at mono
    simp only at mono
    rcases out with data | e | _
    · simp only [getSpectrogramImageData, h_img, h_aud, getImageData]
      split_ifs <;> simpa using mono
    · simpa [getSpectrogramImageData, h_img, h_aud] using mono
    · simpa [getSpectrogramImageData, h_img, h_aud] using mono
  · simpa [getSpectrogramImageData, h_img] using h

/-- The image getter preserves every existing image-cache binding. -/
theorem getSpectrogramImageData_image_mono (env : Env) (props : AppProps)
    (w : ℕ) (st : AppState) (idx j : ℤ) (v : ImageData)
    (h : cacheLookup st.spectrogramImageDataCache j = some v) :
    cacheLookup
      (getSpectrogramImageData env props w st idx).2.1.spectrogramImageDataCache
      j = some v := by
  rcases h_img : cacheLookup st.spectrogramImageDataCache idx with _ | i
  · rcases h_aud : getAudioData env props st idx with ⟨out, st1, r1⟩
    have frame := getAudioData_frame env props st idx
    rw [h_aud] at frame
    simp only at frame
    rcases out with data | e | _
    · simp only [getSpectrogramImageData, h_img, h_aud, getImageData]
      split_ifs
      · simpa [frame.2.2.2.2.1] using h
      · simp only [cacheLookup_cons, frame.2.2.2.2.1]
        rcases eq_or_ne j idx with rfl | hne
        · rw [h] at h_img; cases h_img
        · simp [hne, h]
    · simpa [getSpectrogramImageData, h_img, h_aud, frame.2.2.2.2.1] using h
    · simpa [getSpectrogramImageData, h_img, h_aud, frame.2.2.2.2.1] using h
  · simpa [getSpectrogramImageData, h_img] using h

/-- A resolved image promise means the image is now in the image cache. -/
theorem getSpectrogramImageData_resolved_lookup (env : Env) (props : AppProps)
    (w : ℕ) (st st2 : AppState) (idx : ℤ) (img : ImageData) (b1 b2 : Bool)
    (h : getSpectrogramImageData env props w st idx =
      (.resolved img, st2, b1, b2)) :
    cacheLookup st2.spectrogramImageDataCache idx = some img := by
  rcases h_img : cacheLookup st.spectrogramImageDataCache idx with _ | i
  · rcases h_aud : getAudioData env props st idx with ⟨out, st1, r1⟩
    rcases out with data | e | _
    · simp only [getSpectrogramImageData, h_img, h_aud, getImageData] at h
      split_ifs at h
      · simp at h
      · simp only [Prod.mk.injEq, POutcome.resolved.injEq] at h
        obtain ⟨h1, h2, -⟩ := h
        subst h2
        simp [cacheLookup_cons, h1]
    · simp [getSpectrogramImageData, h_img, h_aud] at h
    · simp [getSpectrogramImageData, h_img, h_aud] at h
  · rw [getSpectrogramImageData_hit env props w st idx i h_img] at h
    simp only [Prod.mk.injEq, POutcome.resolved.injEq] at h
    obtain ⟨h1, h2, -⟩ := h
    subst h1 h2
    exact h_img

/-- On an image-cache miss with resolved audio and a zero-width (or
zero-height) target, the pixel read-back throws `IndexSizeError`: the
promise rejects, the producer counted as invoked, and nothing is cached. -/
theorem getSpectrogramImageData_miss_zero (env : Env) (props : AppProps)
    (w : ℕ) (st st1 : AppState) (idx : ℤ) (data : AudioData) (r1 : Bool)
    (h_img : cacheLookup st.spectrogramImageDataCache idx = none)
    (h_aud : getAudioData env props st idx = (.resolved data, st1, r1))
    (hw : w = 0 ∨ data.spectrumFftData.spectrumBins = 0) :
    getSpectrogramImageData env props w st idx =
      (.rejected .indexSizeError,
       { st1 with
           internalSurface :=
             ⟨w, data.spectrumFftData.spectrumBins,
              env.renderPixels w data.spectrumFftData.spectrumBins
                data.audioBuffer st1.config⟩ },
       r1, true) := by
  have hgi : getImageData
      ⟨w, data.spectrumFftData.spectrumBins,
        env.renderPixels w data.spectrumFftData.spectrumBins
          data.audioBuffer st1.config⟩ w data.spectrumFftData.spectrumBins =
      .error .indexSizeError := by
    simp [getImageData, hw]
  simp only [getSpectrogramImageData, h_img, h_aud, blankSurface]
  simp [hgi]

/-- On an image-cache miss with resolved audio and nonzero target
dimensions, the image producer runs: the result is a `w × spectrumBins`
image, freshly stored in the image cache. -/
theorem getSpectrogramImageData_miss_pos (env : Env) (props : AppProps)
    (w : ℕ) (st st1 : AppState) (idx : ℤ) (data : AudioData) (r1 : Bool)
    (h_img : cacheLookup st.spectrogramImageDataCache idx = none)
    (h_aud : getAudioData env props st idx = (.resolved data, st1, r1))
    (hw : w ≠ 0) (hb : data.spectrumFftData.spectrumBins ≠ 0) :
    getSpectrogramImageData env props w st idx =
      (.resolved
        (⟨w, data.spectrumFftData.spectrumBins,
          env.renderPixels w data.spectrumFftData.spectrumBins
            data.audioBuffer st1.config⟩ : ImageData),
       { st1 with
           internalSurface :=
             ⟨w, data.spectrumFftData.spectrumBins,
              env.renderPixels w data.spectrumFftData.spectrumBins
                data.audioBuffer st1.config⟩
           spectrogramImageDataCache :=
             (idx,
              (⟨w, data.spectrumFftData.spectrumBins,
                env.renderPixels w data.spectrumFftData.spectrumBins
                  data.audioBuffer st1.config⟩ : ImageData)) ::
               st1.spectrogramImageDataCache },
       r1, true) := by
  simp [getSpectrogramImageData, h_img, h_aud, getImageData, hw, hb,
    blankSurface]

/-- Drawing the markings changes only the visible surface: every React
state field and both caches are untouched. -/
theorem applyRenderMarkings_frame (env : Env) (props : AppProps)
    (st : AppState) :
    (applyRenderMarkings env props st).volume = st.volume ∧
    (applyRenderMarkings env props st).isPlaying = st.isPlaying ∧
    (applyRenderMarkings env props st).selectedIndex = st.selectedIndex ∧
    (applyRenderMarkings env props st).config = st.config ∧
    (applyRenderMarkings env props st).audioDataCache = st.audioDataCache ∧
    (applyRenderMarkings env props st).spectrogramImageDataCache =
      st.spectrogramImageDataCache := by
  simp [applyRenderMarkings]

/-- One microtask step preserves the React state fields and every existing
binding of both caches. -/
theorem runJob_state (env : Env) (props : AppProps) (w : ℕ) (ms : MState)
    (jb : Job) :
    (runJob env props w ms jb).1.app.volume = ms.app.volume ∧
    (runJob env props w ms jb).1.app.isPlaying = ms.app.isPlaying ∧
    (runJob env props w ms jb).1.app.selectedIndex = ms.app.selectedIndex ∧
    (runJob env props w ms jb).1.app.config = ms.app.config ∧
    (∀ j v, cacheLookup ms.app.audioDataCache j = some v →
      cacheLookup (runJob env props w ms jb).1.app.audioDataCache j =
        some v) ∧
    (∀ j v, cacheLookup ms.app.spectrogramImageDataCache j = some v →
      cacheLookup
        (runJob env props w ms jb).1.app.spectrogramImageDataCache j =
        some v) := by
  cases jb with
  | imageThen img => simp [runJob]
  | audioThen =>
    rcases hg : getSpectrogramImageData env props w ms.app
        ms.app.selectedIndex with ⟨out, app1, r1, r2⟩
    have frame :=
      getSpectrogramImageData_frame env props w ms.app ms.app.selectedIndex
    rw [hg] at frame
    simp only at frame
    have marks := applyRenderMarkings_frame env props app1
    simp only [runJob, hg]
    refine ⟨by rw [marks.1, frame.1], by rw [marks.2.1, frame.2.1],
      by rw [marks.2.2.1, frame.2.2.1], by rw [marks.2.2.2.1, frame.2.2.2],
      ?_, ?_⟩
    · intro j v hv
      have := getSpectrogramImageData_audio_mono env props w ms.app
        ms.app.selectedIndex j v hv
      rw [hg] at this
      simp only at this
      rw [marks.2.2.2.2.1]
      exact this
    · intro j v hv
      have := getSpectrogramImageData_image_mono env props w ms.app
        ms.app.selectedIndex j v hv
      rw [hg] at this
      simp only at this
      rw [marks.2.2.2.2.2]
      exact this

/-- Draining the microtask queue preserves the React state fields and
every existing binding of both caches. -/
theorem drainJobs_state (env : Env) (props : AppProps) (w : ℕ) (fuel : ℕ) :
    ∀ (jobs : List Job) (ms : MState),
    (drainJobs env props w fuel jobs ms).app.volume = ms.app.volume ∧
    (drainJobs env props w fuel jobs ms).app.isPlaying = ms.app.isPlaying ∧
    (drainJobs env props w fuel jobs ms).app.selectedIndex =
      ms.app.selectedIndex ∧
    (drainJobs env props w fuel jobs ms).app.config = ms.app.config ∧
    (∀ j v, cacheLookup ms.app.audioDataCache j = some v →
      cacheLookup
        (drainJobs env props w fuel jobs ms).app.audioDataCache j =
        some v) ∧
    (∀ j v, cacheLookup ms.app.spectrogramImageDataCache j = some v →
      cacheLookup
        (drainJobs env props w fuel jobs ms).app.spectrogramImageDataCache
        j = some v) := by
  induction fuel with
  | zero =>
    intro jobs ms
    simp [drainJobs]
  | succ n ih =>
    intro jobs ms
    cases jobs with
    | nil => simp [drainJobs]
    | cons jb rest =>
      rcases hr : runJob env props w ms jb with ⟨ms1, newJobs⟩
      have hJ := runJob_state env props w ms jb
      rw [hr] at hJ
      simp only at hJ
      have hD := ih (rest ++ newJobs) ms1
      simp only [drainJobs, hr]
      refine ⟨hD.1.trans hJ.1, hD.2.1.trans hJ.2.1,
        hD.2.2.1.trans hJ.2.2.1, hD.2.2.2.1.trans hJ.2.2.2.1, ?_, ?_⟩
      · intro j v hv
        exact hD.2.2.2.2.1 j v (hJ.2.2.2.2.1 j v hv)
      · intro j v hv
        exact hD.2.2.2.2.2 j v (hJ.2.2.2.2.2 j v hv)

/-- A whole render request preserves the React state fields and every
existing binding of both caches. -/
theorem runRenderRequest_state (env : Env) (props : AppProps) (w : ℕ)
    (st : AppState) :
    (runRenderRequest env props w st).app.volume = st.volume ∧
    (runRenderRequest env props w st).app.isPlaying = st.isPlaying ∧
    (runRenderRequest env props w st).app.selectedIndex =
      st.selectedIndex ∧
    (runRenderRequest env props w st).app.config = st.config ∧
    (∀ j v, cacheLookup st.audioDataCache j = some v →
      cacheLookup (runRenderRequest env props w st).app.audioDataCache j =
        some v) ∧
    (∀ j v, cacheLookup st.spectrogramImageDataCache j = some v →
      cacheLookup
        (runRenderRequest env props w st).app.spectrogramImageDataCache j =
        some v) := by
  rcases hg : getAudioData env props st st.selectedIndex with ⟨out, st1, r1⟩
  have frame := getAudioData_frame env props st st.selectedIndex
  rw [hg] at frame
  simp only at frame
  have hamono : ∀ j v, cacheLookup st.audioDataCache j = some v →
      cacheLookup st1.audioDataCache j = some v := by
    intro j v hv
    have := getAudioData_audio_mono env props st st.selectedIndex j v hv
    rw [hg] at this
    simpa using this
  rcases out with data | e | _
  · have hD := drainJobs_state env props w 4 [.audioThen] ⟨st1, [], r1, false⟩
    simp only [runRenderRequest, hg]
    refine ⟨hD.1.trans frame.1, hD.2.1.trans frame.2.1,
      hD.2.2.1.trans frame.2.2.1, hD.2.2.2.1.trans frame.2.2.2.1, ?_, ?_⟩
    · intro j v hv
      exact hD.2.2.2.2.1 j v (hamono j v hv)
    · intro j v hv
      refine hD.2.2.2.2.2 j v ?_
      rw [frame.2.2.2.2.1]
      exact hv
  · simp only [runRenderRequest, hg]
    refine ⟨frame.1, frame.2.1, frame.2.2.1, frame.2.2.2.1, ?_, ?_⟩
    · intro j v hv
      exact hamono j v hv
    · intro j v hv
      rw [frame.2.2.2.2.1]
      exact hv
  · simp only [runRenderRequest, hg]
    refine ⟨frame.1, frame.2.1, frame.2.2.1, frame.2.2.2.1, ?_, ?_⟩
    · intro j v hv
      exact hamono j v hv
    · intro j v hv
      rw [frame.2.2.2.2.1]
      exact hv

/-- A render request on a fully warm cache: no producer runs, both caches
are untouched, and the trace still draws the marks first and only then
writes the spectrogram pixels over them. -/
theorem runRenderRequest_hit (env : Env) (props : AppProps) (w : ℕ)
    (st : AppState) (a : AudioData) (i : ImageData)
    (ha : cacheLookup st.audioDataCache st.selectedIndex = some a)
    (hi : cacheLookup st.spectrogramImageDataCache st.selectedIndex = some i) :
    runRenderRequest env props w st =
      ⟨{ applyRenderMarkings env props st with
           visibleSurface := ⟨i.width, i.height, i.data⟩ },
       [.marksDrawn, .spectrogramPixelsPut i.width i.height],
       false, false⟩ := by
  have hga := getAudioData_hit env props st st.selectedIndex a ha
  have hgi := getSpectrogramImageData_hit env props w st st.selectedIndex i hi
  simp only [runRenderRequest, hga]
  simp [drainJobs, runJob, hgi]

/-- A render request whose audio is cached but whose image is not (the
situation right after a resize): the audio producer does not run, the image
producer does, the audio cache is untouched, and the image cache gains at
most an entry for the selected index. -/
theorem runRenderRequest_audioHit_imageMiss (env : Env) (props : AppProps)
    (w : ℕ) (st : AppState) (a : AudioData)
    (ha : cacheLookup st.audioDataCache st.selectedIndex = some a)
    (hi : cacheLookup st.spectrogramImageDataCache st.selectedIndex = none) :
    (runRenderRequest env props w st).audioRan = false ∧
    (runRenderRequest env props w st).imageRan = true ∧
    (runRenderRequest env props w st).app.audioDataCache =
      st.audioDataCache ∧
    ((runRenderRequest env props w st).app.spectrogramImageDataCache =
        st.spectrogramImageDataCache ∨
      ∃ img,
        (runRenderRequest env props w st).app.spectrogramImageDataCache =
          (st.selectedIndex, img) :: st.spectrogramImageDataCache) := by
  have hga := getAudioData_hit env props st st.selectedIndex a ha
  by_cases hz : w = 0 ∨ a.spectrumFftData.spectrumBins = 0
  · have hgi := getSpectrogramImageData_miss_zero env props w st st
      st.selectedIndex a false hi hga hz
    simp only [runRenderRequest, hga]
    simp [drainJobs, runJob, hgi, applyRenderMarkings]
  · push_neg at hz
    have hgi := getSpectrogramImageData_miss_pos env props w st st
      st.selectedIndex a false hi hga hz.1 hz.2
    simp only [runRenderRequest, hga]
    simp [drainJobs, runJob, hgi, applyRenderMarkings]

/-- A render request with both caches cold for a decodable selected file
and nonzero target dimensions: both producers run exactly here, and both
caches end up holding the freshly computed entries for the selected
index. -/
theorem runRenderRequest_missBoth (env : Env) (props : AppProps) (w : ℕ)
    (st : AppState) (f : AudioFile) (buf : AudioBuffer)
    (ha : cacheLookup st.audioDataCache st.selectedIndex = none)
    (hf : listGetZ props.audioFiles st.selectedIndex = some f)
    (hd : env.decode f.content = .ok buf)
    (hi : cacheLookup st.spectrogramImageDataCache st.selectedIndex = none)
    (hw : w ≠ 0) (hb : (env.analyze buf st.config).spectrumBins ≠ 0) :
    (runRenderRequest env props w st).audioRan = true ∧
    (runRenderRequest env props w st).imageRan = true ∧
    cacheLookup (runRenderRequest env props w st).app.audioDataCache
      st.selectedIndex = some ⟨buf, env.analyze buf st.config⟩ ∧
    ∃ img,
      cacheLookup
        (runRenderRequest env props w st).app.spectrogramImageDataCache
        st.selectedIndex = some img ∧
      img.width = w ∧ img.height = (env.analyze buf st.config).spectrumBins := by
  have hga := getAudioData_miss_ok env props st st.selectedIndex f buf ha hf hd
  have hi1 : cacheLookup
      ({ st with
          audioDataCache :=
            (st.selectedIndex, (⟨buf, env.analyze buf st.config⟩ : AudioData)) ::
              st.audioDataCache } :
        AppState).spectrogramImageDataCache st.selectedIndex = none := hi
  have hga2 := getAudioData_hit env props
    { st with
        audioDataCache :=
          (st.selectedIndex, (⟨buf, env.analyze buf st.config⟩ : AudioData)) ::
            st.audioDataCache }
    st.selectedIndex ⟨buf, env.analyze buf st.config⟩
    (by simp [cacheLookup_cons])
  have hgi := getSpectrogramImageData_miss_pos env props w _ _
    st.selectedIndex ⟨buf, env.analyze buf st.config⟩ false hi1 hga2 hw hb
  simp only [runRenderRequest, hga]
  simp [drainJobs, runJob, hgi, applyRenderMarkings, cacheLookup_cons]

/-- Any number of consecutive orchestrator invocations on a warm cache
(both entries present for the selected index) invokes neither producer. -/
theorem iterateInvocations_hit (env : Env) (props : AppProps) (w : ℕ)
    (n : ℕ) :
    ∀ (st : AppState) (a : AudioData) (i : ImageData),
    cacheLookup st.audioDataCache st.selectedIndex = some a →
    cacheLookup st.spectrogramImageDataCache st.selectedIndex = some i →
    (iterateInvocations env props w n st).2 = (0, 0) := by
  induction n with
  | zero =>
    intro st a i ha hi
    simp [iterateInvocations]
  | succ m ih =>
    intro st a i ha hi
    have hreq := runRenderRequest_hit env props w st a i ha hi
    have marks := applyRenderMarkings_frame env props st
    have hst1 : renderInvocation env props w st =
        ({ applyRenderMarkings env props st with
             visibleSurface := ⟨i.width, i.height, i.data⟩ },
         false, false) := by
      simp [renderInvocation, hreq]
    have ha' : cacheLookup
        ({ applyRenderMarkings env props st with
             visibleSurface := ⟨i.width, i.height, i.data⟩ } :
          AppState).audioDataCache
        ({ applyRenderMarkings env props st with
             visibleSurface := ⟨i.width, i.height, i.data⟩ } :
          AppState).selectedIndex = some a := by
      simpa [marks.2.2.1, marks.2.2.2.2.1] using ha
    have hi' : cacheLookup
        ({ applyRenderMarkings env props st with
             visibleSurface := ⟨i.width, i.height, i.data⟩ } :
          AppState).spectrogramImageDataCache
        ({ applyRenderMarkings env props st with
             visibleSurface := ⟨i.width, i.height, i.data⟩ } :
          AppState).selectedIndex = some i := by
      simpa [marks.2.2.1, marks.2.2.2.2.2] using hi
    have ih' := ih _ a i ha' hi'
    simp only [iterateInvocations, hst1]
    rcases hit : iterateInvocations env props w m
        { applyRenderMarkings env props st with
            visibleSurface := ⟨i.width, i.height, i.data⟩ } with ⟨st2, na, ni⟩
    rw [hit] at ih'
    simp only [Prod.mk.injEq] at ih'
    simp [ih'.1, ih'.2]

/-- A render invocation never changes the React state fields, and it
preserves every existing binding of both caches. -/
theorem renderInvocation_fields (env : Env) (props : AppProps) (w : ℕ)
    (st : AppState) :
    (renderInvocation env props w st).1.volume = st.volume ∧
    (renderInvocation env props w st).1.selectedIndex = st.selectedIndex ∧
    (∀ j v, cacheLookup st.audioDataCache j = some v →
      cacheLookup (renderInvocation env props w st).1.audioDataCache j =
        some v) := by
  have h := runRenderRequest_state env props w st
  exact ⟨h.1, h.2.2.1, h.2.2.2.2.1⟩

/-- The dimensions carried by a resolved image promise, if any. -/
def outcomeDims : POutcome ImageData → Option (ℕ × ℕ)
  | .resolved img => some (img.width, img.height)
  | _ => none

/-!
Concrete fixtures used to exercise the theorems on closed inputs.
-/

/-- A concrete collaborator environment: file bytes `[9]` fail to decode,
everything else decodes to its bytes as samples; analysis always reports
256 frequency bins. -/
def testEnv : Env :=
  { decode := fun bytes =>
      if bytes = [9] then .error .unsupportedOrCorrupt
      else .ok ⟨bytes.map Int.ofNat, 44100⟩
    analyze := fun _ _ => ⟨256, [[1, 2], [3, 4]]⟩
    renderPixels := fun w h _ _ => List.replicate (4 * w * h) 5
    drawMarks := fun s vals => { s with pixels := (vals.length) :: s.pixels }
    fields := fun _ _ => ([⟨"duration", 2⟩], []) }

/-- Concrete props: two files, the second of which fails to decode. -/
def testProps : AppProps :=
  ⟨[⟨"a.wav", [1, 2, 3]⟩, ⟨"bad.wav", [9]⟩], ⟨0⟩⟩

/-- The constructor state for the concrete props. -/
def testState : AppState := initialState testProps

/-- A concrete state whose second (undecodable) file is selected. -/
def badFileState : AppState := { testState with selectedIndex := 1 }

/-- A concrete warm state: file 0's audio and image both cached by hand,
with small payloads. -/
def warmState : AppState :=
  { testState with
      audioDataCache :=
        [(0, ⟨⟨[1, 2, 3], 44100⟩, ⟨256, [[1, 2], [3, 4]]⟩⟩)]
      spectrogramImageDataCache := [(0, ⟨800, 256, [7]⟩)] }

/-!
The claims.
-/

/-- C1: for every file index, calling the cache-layer get-or-compute
(`getAudioData` / `getSpectrogramImageData`) a second time after a first
successful call returns the stored value without invoking the producer
again; and the decode-and-analyze producer (likewise the image producer)
runs exactly once across any number of consecutive orchestrator
invocations with no intervening resize. -/
theorem c1_get_or_compute_idempotent :
    (∀ (env : Env) (props : AppProps) (st st1 : AppState) (idx : ℤ)
       (d : AudioData) (b : Bool),
       getAudioData env props st idx = (.resolved d, st1, b) →
       getAudioData env props st1 idx = (.resolved d, st1, false)) ∧
    (∀ (env : Env) (props : AppProps) (w : ℕ) (st st1 : AppState) (idx : ℤ)
       (i : ImageData) (b1 b2 : Bool),
       getSpectrogramImageData env props w st idx =
         (.resolved i, st1, b1, b2) →
       getSpectrogramImageData env props w st1 idx =
         (.resolved i, st1, false, false)) ∧
    (∀ (env : Env) (props : AppProps) (w : ℕ) (st : AppState)
       (f : AudioFile) (buf : AudioBuffer) (n : ℕ),
       cacheLookup st.audioDataCache st.selectedIndex = none →
       listGetZ props.audioFiles st.selectedIndex = some f →
       env.decode f.content = .ok buf →
       cacheLookup st.spectrogramImageDataCache st.selectedIndex = none →
       w ≠ 0 → (env.analyze buf st.config).spectrumBins ≠ 0 →
       (iterateInvocations env props w (n + 1) st).2 = (1, 1)) := by
  refine ⟨?_, ?_, ?_⟩
  · intro env props st st1 idx d b h
    exact getAudioData_hit env props st1 idx d
      (getAudioData_resolved_lookup env props st st1 idx d b h)
  · intro env props w st st1 idx i b1 b2 h
    exact getSpectrogramImageData_hit env props w st1 idx i
      (getSpectrogramImageData_resolved_lookup env props w st st1 idx i
        b1 b2 h)
  · intro env props w st f buf n ha hf hd hi hw hb
    obtain ⟨hA, hI, hal, img, hil, -, -⟩ :=
      runRenderRequest_missBoth env props w st f buf ha hf hd hi hw hb
    have hsel := (runRenderRequest_state env props w st).2.2.1
    have hiter := iterateInvocations_hit env props w n
      (runRenderRequest env props w st).app ⟨buf, env.analyze buf st.config⟩
      img (by rw [hsel]; exact hal) (by rw [hsel]; exact hil)
    simp only [iterateInvocations, renderInvocation]
    rcases hit2 : iterateInvocations env props w n
        (runRenderRequest env props w st).app with ⟨st2, na, ni⟩
    rw [hit2] at hiter
    simp only [Prod.mk.injEq] at hiter
    simp [hA, hI, hiter.1, hiter.2]

/-- C1 witness: with the concrete environment, five consecutive
orchestrator invocations on a cold cache invoke each producer exactly
once. -/
theorem c1_get_or_compute_idempotent_witness :
    (iterateInvocations testEnv testProps 800 (4 + 1) testState).2 = (1, 1) :=
  c1_get_or_compute_idempotent.2.2 testEnv testProps 800 testState
    ⟨"a.wav", [1, 2, 3]⟩ ⟨[1, 2, 3].map Int.ofNat, 44100⟩ 4
    (by decide) (by decide) (by rfl) (by decide) (by decide) (by decide)

/-- C2: a resize event clears every entry of the spectrogram-image cache
and leaves every entry of the audio cache unchanged; re-rendering a
previously decoded index afterwards re-invokes the image producer but not
the audio producer. -/
theorem c2_resize_clears_only_image_cache (env : Env) (props : AppProps)
    (w : ℕ) (st : AppState) (a : AudioData)
    (ha : cacheLookup st.audioDataCache st.selectedIndex = some a) :
    (windowOnResize env props w st).2.1 = false ∧
    (windowOnResize env props w st).2.2 = true ∧
    (windowOnResize env props w st).1.audioDataCache = st.audioDataCache ∧
    (∀ j, j ≠ st.selectedIndex →
      cacheLookup
        (windowOnResize env props w st).1.spectrogramImageDataCache j =
        none) := by
  have key := runRenderRequest_audioHit_imageMiss env props w
    { st with spectrogramImageDataCache := [] } a ha (by simp [cacheLookup])
  simp only [windowOnResize, renderInvocation]
  refine ⟨key.1, key.2.1, key.2.2.1, ?_⟩
  intro j hj
  rcases key.2.2.2 with himg | ⟨img, himg⟩
  · rw [himg]; rfl
  · rw [himg]
    simp [cacheLookup_cons, hj, cacheLookup]

/-- C2 witness: resizing the concrete warm state re-runs only the image
producer and leaves the audio cache as it was. -/
theorem c2_resize_clears_only_image_cache_witness :
    (windowOnResize testEnv testProps 500 warmState).2.1 = false ∧
    (windowOnResize testEnv testProps 500 warmState).2.2 = true ∧
    (windowOnResize testEnv testProps 500 warmState).1.audioDataCache =
      warmState.audioDataCache ∧
    cacheLookup
      (windowOnResize testEnv testProps
        500 warmState).1.spectrogramImageDataCache 5 = none := by
  have h := c2_resize_clears_only_image_cache testEnv testProps 500 warmState
    ⟨⟨[1, 2, 3], 44100⟩, ⟨256, [[1, 2], [3, 4]]⟩⟩ (by decide)
  exact ⟨h.1, h.2.1, h.2.2.1, h.2.2.2 5 (by decide)⟩

/-- C3 counterexample: for the undecodable second file, the `getAudioData`
promise neither resolves nor rejects — it stays pending, contrary to the
claim that the failure propagates to the caller — and the render request
never settles or draws anything (the audio cache stays empty, which part
of the claim does hold). -/
theorem c3_decode_error_counterexample :
    (getAudioData testEnv testProps badFileState 1).1 = .pending ∧
    (getAudioData testEnv testProps badFileState 1).1 ≠
      .rejected .indexSizeError ∧
    (getAudioData testEnv testProps badFileState 1).1 ≠
      .rejected .typeError ∧
    cacheLookup
      (getAudioData testEnv testProps badFileState 1).2.1.audioDataCache 1 =
      none ∧
    renderRequestEvents testEnv testProps 800 badFileState = [] := by
  exact ⟨by rfl, by decide, by decide, by rfl, by rfl⟩

/-- C3 as amended: when decoding fails, the error does not propagate —
`decodeAudioData` is invoked without an error callback, so the
`getAudioData` promise stays forever pending, the render request performs
no drawing, and no entry for that index is stored in the audio cache (the
whole state is untouched). -/
theorem c3_decode_failure_never_settles (env : Env) (props : AppProps)
    (w : ℕ) (st : AppState) (f : AudioFile) (e : DecodeError)
    (hc : cacheLookup st.audioDataCache st.selectedIndex = none)
    (hf : listGetZ props.audioFiles st.selectedIndex = some f)
    (hd : env.decode f.content = .error e) :
    getAudioData env props st st.selectedIndex = (.pending, st, true) ∧
    runRenderRequest env props w st = ⟨st, [], true, false⟩ := by
  have h := getAudioData_miss_err env props st st.selectedIndex f e hc hf hd
  exact ⟨h, by simp [runRenderRequest, h]⟩

/-- C3 witness: the amended statement at the concrete undecodable file. -/
theorem c3_decode_failure_never_settles_witness :
    getAudioData testEnv testProps badFileState badFileState.selectedIndex =
      (.pending, badFileState, true) ∧
    runRenderRequest testEnv testProps 800 badFileState =
      ⟨badFileState, [], true, false⟩ :=
  c3_decode_failure_never_settles testEnv testProps 800 badFileState
    ⟨"bad.wav", [9]⟩ .unsupportedOrCorrupt (by decide) (by decide) (by rfl)

/-- C4 counterexample: at display width `0` the spectrogram render does
not return an empty buffer — the `getImageData` read-back of the
zero-width rectangle throws `IndexSizeError` and the promise rejects. -/
theorem c4_zero_width_counterexample :
    (getSpectrogramImageData testEnv testProps 0 testState 0).1 =
      .rejected .indexSizeError ∧
    outcomeDims (getSpectrogramImageData testEnv testProps 0 testState 0).1 =
      none := by
  exact ⟨by rfl, by rfl⟩

/-- C4 as amended: for a display width of zero, the spectrogram render
operation fails — the pixel read-back of the zero-width rectangle throws
`IndexSizeError`, rejecting the promise — and no image-cache entry is
stored. -/
theorem c4_zero_width_rejects (env : Env) (props : AppProps)
    (st st1 : AppState) (idx : ℤ) (data : AudioData) (r1 : Bool)
    (h_img : cacheLookup st.spectrogramImageDataCache idx = none)
    (h_aud : getAudioData env props st idx = (.resolved data, st1, r1)) :
    (getSpectrogramImageData env props 0 st idx).1 =
      .rejected .indexSizeError ∧
    cacheLookup
      (getSpectrogramImageData env props 0 st
        idx).2.1.spectrogramImageDataCache idx = none := by
  have frame := getAudioData_frame env props st idx
  rw [h_aud] at frame
  simp only at frame
  have h := getSpectrogramImageData_miss_zero env props 0 st st1 idx data r1
    h_img h_aud (Or.inl rfl)
  rw [h]
  exact ⟨rfl, by simp [frame.2.2.2.2.1, h_img]⟩

/-- C4 witness: the amended statement at the concrete decodable file and
width zero. -/
theorem c4_zero_width_rejects_witness :
    (getSpectrogramImageData testEnv testProps 0 testState 0).1 =
      .rejected .indexSizeError ∧
    cacheLookup
      (getSpectrogramImageData testEnv testProps 0 testState
        0).2.1.spectrogramImageDataCache 0 = none :=
  c4_zero_width_rejects testEnv testProps testState
    { testState with
        audioDataCache :=
          [(0, ⟨⟨[1, 2, 3].map Int.ofNat, 44100⟩, ⟨256, [[1, 2], [3, 4]]⟩⟩)] }
    0 ⟨⟨[1, 2, 3].map Int.ofNat, 44100⟩, ⟨256, [[1, 2], [3, 4]]⟩⟩ true
    (by rfl) (by rfl)

/-- C5: contrary to the claim, the markings are NOT drawn after the
spectrogram pixels.  `useSelectedAudioFileToRender` runs the renderer list
synchronously, so `renderMarkings` draws immediately, while
`renderSpectrogramUsingCache` only schedules its `putImageData` in a
`.then` continuation; that continuation runs in a later microtask, resets
the canvas size and writes the pixels over the already-drawn marks.  On
the concrete warm state the observable event trace is marks first, pixels
second. -/
theorem c5_marks_drawn_before_spectrogram_pixels :
    renderRequestEvents testEnv testProps 800 warmState =
      [.marksDrawn, .spectrogramPixelsPut 800 256] := by
  rfl

/-- C6: every spectrogram image produced on a cache miss has width equal
to the current display width (`window.innerWidth`) and height equal to the
frequency-bin count of the spectrum. -/
theorem c6_rendered_dimensions (env : Env) (props : AppProps) (w : ℕ)
    (st st1 : AppState) (idx : ℤ) (data : AudioData) (r1 : Bool)
    (h_img : cacheLookup st.spectrogramImageDataCache idx = none)
    (h_aud : getAudioData env props st idx = (.resolved data, st1, r1))
    (hw : w ≠ 0) (hb : data.spectrumFftData.spectrumBins ≠ 0) :
    outcomeDims (getSpectrogramImageData env props w st idx).1 =
      some (w, data.spectrumFftData.spectrumBins) := by
  rw [getSpectrogramImageData_miss_pos env props w st st1 idx data r1 h_img
    h_aud hw hb]
  rfl

/-- C6 witness: frequency-bin count 256 and display width 800 give exactly
an 800 × 256 buffer. -/
theorem c6_rendered_dimensions_witness :
    outcomeDims (getSpectrogramImageData testEnv testProps 800 testState 0).1 =
      some (800, 256) :=
  c6_rendered_dimensions testEnv testProps 800 testState
    { testState with
        audioDataCache :=
          [(0, ⟨⟨[1, 2, 3].map Int.ofNat, 44100⟩, ⟨256, [[1, 2], [3, 4]]⟩⟩)] }
    0 ⟨⟨[1, 2, 3].map Int.ofNat, 44100⟩, ⟨256, [[1, 2], [3, 4]]⟩⟩ true
    (by rfl) (by rfl) (by decide) (by decide)

/-- C7: running the markings renderer never mutates a cached image: the
marks-drawing step leaves both caches exactly as they were (it only
touches the live visible surface), and across an entire render request —
markings included — every previously stored image-cache binding is still
found unchanged. -/
theorem c7_markings_never_mutate_caches (env : Env) (props : AppProps) :
    (∀ st : AppState,
      (applyRenderMarkings env props st).audioDataCache =
        st.audioDataCache ∧
      (applyRenderMarkings env props st).spectrogramImageDataCache =
        st.spectrogramImageDataCache) ∧
    (∀ (w : ℕ) (st : AppState) (j : ℤ) (v : ImageData),
      cacheLookup st.spectrogramImageDataCache j = some v →
      cacheLookup
        (runRenderRequest env props w st).app.spectrogramImageDataCache j =
        some v) := by
  refine ⟨fun st => ⟨(applyRenderMarkings_frame env props st).2.2.2.2.1,
    (applyRenderMarkings_frame env props st).2.2.2.2.2⟩, ?_⟩
  intro w st j v hv
  exact (runRenderRequest_state env props w st).2.2.2.2.2 j v hv

/-- C7 witness: on the concrete warm state the marks step leaves both
caches untouched and the cached image survives a full render request
byte-identically. -/
theorem c7_markings_never_mutate_caches_witness :
    (applyRenderMarkings testEnv testProps warmState).audioDataCache =
      warmState.audioDataCache ∧
    (applyRenderMarkings testEnv testProps
      warmState).spectrogramImageDataCache =
      warmState.spectrogramImageDataCache ∧
    cacheLookup
      (runRenderRequest testEnv testProps 800
        warmState).app.spectrogramImageDataCache 0 =
      some ⟨800, 256, [7]⟩ := by
  have h := c7_markings_never_mutate_caches testEnv testProps
  exact ⟨(h.1 warmState).1, (h.1 warmState).2,
    h.2 800 warmState 0 ⟨800, 256, [7]⟩ (by decide)⟩

/-- C8: no operation of the core ever removes or replaces an existing
audio-cache entry — one operation preserves every stored binding, and so
does any sequence of operations. -/
theorem c8_audio_cache_entries_persist :
    (∀ (env : Env) (props : AppProps) (w : ℕ) (st : AppState) (op : Op)
       (idx : ℤ) (v : AudioData),
      cacheLookup st.audioDataCache idx = some v →
      cacheLookup (applyOp env props w st op).audioDataCache idx = some v) ∧
    (∀ (env : Env) (props : AppProps) (w : ℕ) (ops : List Op)
       (st : AppState) (idx : ℤ) (v : AudioData),
      cacheLookup st.audioDataCache idx = some v →
      cacheLookup (ops.foldl (applyOp env props w) st).audioDataCache idx =
        some v) := by
  have single : ∀ (env : Env) (props : AppProps) (w : ℕ) (st : AppState)
      (op : Op) (idx : ℤ) (v : AudioData),
      cacheLookup st.audioDataCache idx = some v →
      cacheLookup (applyOp env props w st op).audioDataCache idx = some v := by
    intro env props w st op idx v hv
    cases op with
    | previousFile =>
      exact (renderInvocation_fields env props w _).2.2 idx v
        ((renderInvocation_fields env props w _).2.2 idx v hv)
    | nextFile =>
      exact (renderInvocation_fields env props w _).2.2 idx v
        ((renderInvocation_fields env props w _).2.2 idx v hv)
    | volumeSlider v2 =>
      cases v2 with
      | finite q =>
        exact (renderInvocation_fields env props w _).2.2 idx v hv
      | nan => exact hv
      | posInf => exact hv
      | negInf => exact hv
    | resize =>
      exact (renderInvocation_fields env props w _).2.2 idx v hv
    | renderCurrent =>
      exact (renderInvocation_fields env props w _).2.2 idx v hv
  refine ⟨single, ?_⟩
  intro env props w ops
  induction ops with
  | nil => intro st idx v hv; exact hv
  | cons op rest ih =>
    intro st idx v hv
    exact ih (applyOp env props w st op) idx v
      (single env props w st op idx v hv)

/-- C8 witness: the concrete warm state's audio entry for index 0 survives
a resize and a navigation sequence. -/
theorem c8_audio_cache_entries_persist_witness :
    cacheLookup (applyOp testEnv testProps 800 warmState
      Op.resize).audioDataCache 0 =
      some ⟨⟨[1, 2, 3], 44100⟩, ⟨256, [[1, 2], [3, 4]]⟩⟩ ∧
    cacheLookup
      ([Op.nextFile, Op.resize,
        Op.previousFile].foldl (applyOp testEnv testProps 800)
          warmState).audioDataCache 0 =
      some ⟨⟨[1, 2, 3], 44100⟩, ⟨256, [[1, 2], [3, 4]]⟩⟩ :=
  ⟨c8_audio_cache_entries_persist.1 testEnv testProps 800 warmState
    Op.resize 0 _ (by decide),
   c8_audio_cache_entries_persist.2 testEnv testProps 800
    [Op.nextFile, Op.resize, Op.previousFile] warmState 0 _ (by decide)⟩

/-- One operation keeps the selected index inside `[0, length - 1]`. -/
theorem applyOp_selectedIndex_bounds (env : Env) (props : AppProps) (w : ℕ)
    (st : AppState) (op : Op) (hne : props.audioFiles ≠ [])
    (h0 : 0 ≤ st.selectedIndex)
    (h1 : st.selectedIndex ≤ (props.audioFiles.length : ℤ) - 1) :
    0 ≤ (applyOp env props w st op).selectedIndex ∧
    (applyOp env props w st op).selectedIndex ≤
      (props.audioFiles.length : ℤ) - 1 := by
  have hlen1 : 1 ≤ (props.audioFiles.length : ℤ) := by
    exact_mod_cast List.length_pos.mpr hne
  cases op with
  | previousFile =>
    have e1 := (renderInvocation_fields env props w
      { st with selectedIndex := max 0 (st.selectedIndex - 1) }).2.1
    have e2 := (renderInvocation_fields env props w
      (renderInvocation env props w
        { st with selectedIndex := max 0 (st.selectedIndex - 1) }).1).2.1
    simp only [applyOp, previousFileButtonOnClick, e2, e1]
    exact ⟨le_max_left 0 _, max_le (by omega) (by omega)⟩
  | nextFile =>
    have e1 := (renderInvocation_fields env props w
      { st with
          selectedIndex :=
            min ((props.audioFiles.length : ℤ) - 1)
              (st.selectedIndex + 1) }).2.1
    have e2 := (renderInvocation_fields env props w
      (renderInvocation env props w
        { st with
            selectedIndex :=
              min ((props.audioFiles.length : ℤ) - 1)
                (st.selectedIndex + 1) }).1).2.1
    simp only [applyOp, nextFileButtonOnClick, e2, e1]
    exact ⟨le_min (by omega) (by omega), min_le_left _ _⟩
  | volumeSlider v2 =>
    cases v2 with
    | finite q =>
      have e1 := (renderInvocation_fields env props w
        (volumeSliderOnChange st (.finite q))).2.1
      simp only [applyOp]
      rw [e1]
      exact ⟨h0, h1⟩
    | nan => exact ⟨h0, h1⟩
    | posInf => exact ⟨h0, h1⟩
    | negInf => exact ⟨h0, h1⟩
  | resize =>
    have e1 := (renderInvocation_fields env props w
      { st with spectrogramImageDataCache := [] }).2.1
    simp only [applyOp, windowOnResize, e1]
    exact ⟨h0, h1⟩
  | renderCurrent =>
    have e1 := (renderInvocation_fields env props w st).2.1
    simp only [applyOp, e1]
    exact ⟨h0, h1⟩

/-- C9: for a non-empty file list the selected index always stays within
`[0, length - 1]`: the constructor starts it at 0, Previous at 0 leaves
it at 0, Next at the last index leaves it there, and every operation
sequence keeps it in bounds. -/
theorem c9_selected_index_in_bounds :
    (∀ props : AppProps, (initialState props).selectedIndex = 0) ∧
    (∀ (env : Env) (props : AppProps) (w : ℕ) (st : AppState),
      st.selectedIndex = 0 →
      (previousFileButtonOnClick env props w st).selectedIndex = 0) ∧
    (∀ (env : Env) (props : AppProps) (w : ℕ) (st : AppState),
      st.selectedIndex = (props.audioFiles.length : ℤ) - 1 →
      (nextFileButtonOnClick env props w st).selectedIndex =
        (props.audioFiles.length : ℤ) - 1) ∧
    (∀ (env : Env) (props : AppProps) (w : ℕ) (ops : List Op),
      props.audioFiles ≠ [] →
      0 ≤ (applyOps env props w ops).selectedIndex ∧
      (applyOps env props w ops).selectedIndex ≤
        (props.audioFiles.length : ℤ) - 1) := by
  refine ⟨fun props => rfl, ?_, ?_, ?_⟩
  · intro env props w st h
    have e1 := (renderInvocation_fields env props w
      { st with selectedIndex := max 0 (st.selectedIndex - 1) }).2.1
    have e2 := (renderInvocation_fields env props w
      (renderInvocation env props w
        { st with selectedIndex := max 0 (st.selectedIndex - 1) }).1).2.1
    simp only [previousFileButtonOnClick, e2, e1]
    simp [h]
  · intro env props w st h
    have e1 := (renderInvocation_fields env props w
      { st with
          selectedIndex :=
            min ((props.audioFiles.length : ℤ) - 1)
              (st.selectedIndex + 1) }).2.1
    have e2 := (renderInvocation_fields env props w
      (renderInvocation env props w
        { st with
            selectedIndex :=
              min ((props.audioFiles.length : ℤ) - 1)
                (st.selectedIndex + 1) }).1).2.1
    simp only [nextFileButtonOnClick, e2, e1]
    rw [h]
    exact min_eq_left (by omega)
  · intro env props w ops hne
    have hlen1 : 1 ≤ (props.audioFiles.length : ℤ) := by
      exact_mod_cast List.length_pos.mpr hne
    have main : ∀ (l : List Op) (st : AppState),
        0 ≤ st.selectedIndex →
        st.selectedIndex ≤ (props.audioFiles.length : ℤ) - 1 →
        0 ≤ (l.foldl (applyOp env props w) st).selectedIndex ∧
        (l.foldl (applyOp env props w) st).selectedIndex ≤
          (props.audioFiles.length : ℤ) - 1 := by
      intro l
      induction l with
      | nil => intro st h0 h1; exact ⟨h0, h1⟩
      | cons op rest ih =>
        intro st h0 h1
        have hb := applyOp_selectedIndex_bounds env props w st op hne h0 h1
        exact ih _ hb.1 hb.2
    exact main ops (initialState props) le_rfl (by
      simp only [initialState]
      omega)

/-- C9 witness: the bounds at the concrete two-file props. -/
theorem c9_selected_index_in_bounds_witness :
    (initialState testProps).selectedIndex = 0 ∧
    (previousFileButtonOnClick testEnv testProps 800
      testState).selectedIndex = 0 ∧
    (nextFileButtonOnClick testEnv testProps 800
      badFileState).selectedIndex = (testProps.audioFiles.length : ℤ) - 1 ∧
    (0 ≤ (applyOps testEnv testProps 800
        [Op.nextFile, Op.nextFile, Op.previousFile]).selectedIndex ∧
      (applyOps testEnv testProps 800
        [Op.nextFile, Op.nextFile, Op.previousFile]).selectedIndex ≤
        (testProps.audioFiles.length : ℤ) - 1) :=
  ⟨c9_selected_index_in_bounds.1 testProps,
   c9_selected_index_in_bounds.2.1 testEnv testProps 800 testState
    (by decide),
   c9_selected_index_in_bounds.2.2.1 testEnv testProps 800 badFileState
    (by decide),
   c9_selected_index_in_bounds.2.2.2 testEnv testProps 800
    [Op.nextFile, Op.nextFile, Op.previousFile] (by decide)⟩

/-- One operation keeps the volume inside `[0, 1]`. -/
theorem applyOp_volume_bounds (env : Env) (props : AppProps) (w : ℕ)
    (st : AppState) (op : Op) (h0 : 0 ≤ st.volume) (h1 : st.volume ≤ 1) :
    0 ≤ (applyOp env props w st op).volume ∧
    (applyOp env props w st op).volume ≤ 1 := by
  cases op with
  | previousFile =>
    have e1 := (renderInvocation_fields env props w
      { st with selectedIndex := max 0 (st.selectedIndex - 1) }).1
    have e2 := (renderInvocation_fields env props w
      (renderInvocation env props w
        { st with selectedIndex := max 0 (st.selectedIndex - 1) }).1).1
    simp only [applyOp, previousFileButtonOnClick, e2, e1]
    exact ⟨h0, h1⟩
  | nextFile =>
    have e1 := (renderInvocation_fields env props w
      { st with
          selectedIndex :=
            min ((props.audioFiles.length : ℤ) - 1)
              (st.selectedIndex + 1) }).1
    have e2 := (renderInvocation_fields env props w
      (renderInvocation env props w
        { st with
            selectedIndex :=
              min ((props.audioFiles.length : ℤ) - 1)
                (st.selectedIndex + 1) }).1).1
    simp only [applyOp, nextFileButtonOnClick, e2, e1]
    exact ⟨h0, h1⟩
  | volumeSlider v2 =>
    cases v2 with
    | finite q =>
      have e1 := (renderInvocation_fields env props w
        (volumeSliderOnChange st (.finite q))).1
      simp only [applyOp]
      rw [e1]
      exact ⟨le_max_left 0 _, max_le zero_le_one (min_le_right q 1)⟩
    | nan => exact ⟨h0, h1⟩
    | posInf => exact ⟨h0, h1⟩
    | negInf => exact ⟨h0, h1⟩
  | resize =>
    have e1 := (renderInvocation_fields env props w
      { st with spectrogramImageDataCache := [] }).1
    simp only [applyOp, windowOnResize, e1]
    exact ⟨h0, h1⟩
  | renderCurrent =>
    have e1 := (renderInvocation_fields env props w st).1
    simp only [applyOp, e1]
    exact ⟨h0, h1⟩

/-- C10: the volume handler ignores non-finite parsed values, clamps
finite ones into `[0, 1]`, and consequently the volume always lies in
`[0, 1]` under every operation sequence. -/
theorem c10_volume_clamped :
    (∀ (st : AppState) (v : JsNum), v.isFinite = false →
      volumeSliderOnChange st v = st) ∧
    (∀ (st : AppState) (q : ℚ),
      (volumeSliderOnChange st (.finite q)).volume = max 0 (min q 1)) ∧
    (∀ (env : Env) (props : AppProps) (w : ℕ) (ops : List Op),
      0 ≤ (applyOps env props w ops).volume ∧
      (applyOps env props w ops).volume ≤ 1) := by
  refine ⟨?_, fun st q => rfl, ?_⟩
  · intro st v h
    cases v with
    | finite q => simp [JsNum.isFinite] at h
    | nan => rfl
    | posInf => rfl
    | negInf => rfl
  · intro env props w ops
    have main : ∀ (l : List Op) (st : AppState),
        0 ≤ st.volume → st.volume ≤ 1 →
        0 ≤ (l.foldl (applyOp env props w) st).volume ∧
        (l.foldl (applyOp env props w) st).volume ≤ 1 := by
      intro l
      induction l with
      | nil => intro st h0 h1; exact ⟨h0, h1⟩
      | cons op rest ih =>
        intro st h0 h1
        have hb := applyOp_volume_bounds env props w st op h0 h1
        exact ih _ hb.1 hb.2
    exact main ops (initialState props) zero_le_one le_rfl

/-- C10 witness: a `NaN` input leaves the volume alone, `5` is clamped to
`1`, and after such an operation the volume is still in `[0, 1]`. -/
theorem c10_volume_clamped_witness :
    volumeSliderOnChange testState .nan = testState ∧
    (volumeSliderOnChange testState (.finite 5)).volume = max 0 (min 5 1) ∧
    (0 ≤ (applyOps testEnv testProps 800
        [Op.volumeSlider (.finite 5)]).volume ∧
      (applyOps testEnv testProps 800
        [Op.volumeSlider (.finite 5)]).volume ≤ 1) :=
  ⟨c10_volume_clamped.1 testState .nan (by decide),
   c10_volume_clamped.2.1 testState 5,
   c10_volume_clamped.2.2 testEnv testProps 800 [Op.volumeSlider (.finite 5)]⟩

end Snafed
